import Mathlib

/-!
Verification of the book-tracking repository's statistics aggregator and
Book entity, embedded shallowly from the Python sources.

The embedding covers:
* the `Book` model and validators of `booktracker_typer/db.py`;
* the `BookStats` aggregator of `booktracker_typer/main.py`
  (`get_ymd`, `month_stats`, `year_stats`, `complete_stats`);
* the `BookStats.get_ymd` variant of `booktracker_argparse/src/main.py`;
* id assignment (`Book.__post_init__`) of `booktracker/main.py` and
  `booktracker_argparse/src/main.py`;
* the `add`, `delete`, `edit` commands and `get_books` of
  `booktracker_typer/main.py`;
* the date-format check `re.match("[0-9]\x7b4\x7d-[0-9]\x7b2\x7d-[0-9]\x7b2\x7d", s)`
  shared by `db.py`, `date_callback` and `validate_dates`.

Python `None` is modelled by `Option.none`; a Python exception escaping a
function is modelled by an `Option`/`Except` failure result.  The value
`round(statistics.mean(days), 2)` has at most two decimal places, so it is
represented exactly by the integer `100 * value` (its number of hundredths);
rounding is half-to-even on the exact rational mean, the behaviour of
Python's `round` whenever the mean is exactly representable as a float.
-/

namespace BookTrack

/-- Calendar dates as stored by `datetime.date`. -/
structure Date where
  year : Int
  month : Int
  day : Int
deriving DecidableEq, Repr

/-- Day number of a civil date (days since 1970-01-01, proleptic Gregorian).
This is the standard `days_from_civil` algorithm; Python's
`date.toordinal` equals it up to a constant, so date subtraction
(`(dc - ds).days`) and date comparison in the Python sources are faithfully
modelled by differences and comparisons of this number. -/
def daysFromCivil (y m d : Int) : Int :=
  let y' := if m ≤ 2 then y - 1 else y
  let era := (if 0 ≤ y' then y' else y' - 399) / 400
  let yoe := y' - era * 400
  let mp := (m + 9) % 12
  let doy := (153 * mp + 2) / 5 + d - 1
  let doe := yoe * 365 + yoe / 4 - yoe / 100 + doy
  era * 146097 + doe - 719468

/-- Day number of a `Date`. -/
def Date.ord (dt : Date) : Int := daysFromCivil dt.year dt.month dt.day

/-- The status enumeration (`Status` / the `Literal` type in `db.py`). -/
inductive Status where
  | TBR
  | IN_PROGRESS
  | COMPLETED
deriving DecidableEq, Repr

/-- The `Book` model of `booktracker_typer/db.py`.  Date strings that passed
format validation and parse with `datetime` are modelled as parsed `Date`
values; the empty string (no date) is `none`. -/
structure Book where
  id : Option Int := none
  title : String := ""
  author : String := ""
  status : Status := .TBR
  date_started : Option Date := none
  date_completed : Option Date := none
deriving DecidableEq, Repr

/-- `Book.days_to_read` of `db.py`: `(dc - ds).days + 1` when both dates are
present, otherwise `None`. -/
def Book.days_to_read (b : Book) : Option Int :=
  match b.date_started, b.date_completed with
  | some ds, some dc => some (dc.ord - ds.ord + 1)
  | _, _ => none

/-- `BookStats.get_ymd` of `booktracker_typer/main.py`:
`if book.status == "COMPLETED" and book.date_completed:` project to
`(year, month, days_to_read)`, else `None` (the implicit Python return). -/
def get_ymd (b : Book) : Option (Int × Int × Option Int) :=
  match b.status, b.date_completed with
  | .COMPLETED, some dc => some (dc.year, dc.month, b.days_to_read)
  | _, _ => none

/-- `self.ymd = [self.get_ymd(book) for book in books]` in `BookStats.__init__`. -/
def ymdOf (books : List Book) : List (Option (Int × Int × Option Int)) :=
  books.map get_ymd

/-- Sequence a list of optional values; `none` as soon as one entry is
`none`.  Models Python's `statistics.mean` raising `TypeError` when a
`days_to_read` in the data is `None`. -/
def allSome {α : Type} : List (Option α) → Option (List α)
  | [] => some []
  | none :: _ => none
  | some a :: rest => (allSome rest).map (a :: ·)

/-- `round(num / den, 2)` for `den > 0`, returned as the integer number of
hundredths (`100 * value`).  Floor division plus a half-to-even tie on the
remainder: this is round-half-even of the exact rational `100 * num / den`. -/
def round2c (num den : Int) : Int :=
  let n := 100 * num
  let f := n.fdiv den
  let r := n - f * den
  if 2 * r < den then f
  else if den < 2 * r then f + 1
  else if f % 2 = 0 then f else f + 1

/-- A month-level stat row dict
`{"year": _, "month": _, "count": _, "avg_days_to_read": _}`;
`avg_days_to_read` is stored as its number of hundredths. -/
structure MonthRow where
  year : Int
  month : Int
  count : Nat
  avg_days_to_read : Option Int
deriving DecidableEq, Repr

/-- A year-summary stat row dict `{"year": _, "count": _, "avg_days_to_read": _}`;
`avg_days_to_read` is stored as its number of hundredths. -/
structure YearRow where
  year : Int
  count : Nat
  avg_days_to_read : Option Int
deriving DecidableEq, Repr

/-- The filter in `month_stats`:
`[book for book in self.ymd if book and book[0] == year and book[1] == month]`. -/
def monthBooks (ymd : List (Option (Int × Int × Option Int))) (y m : Int) :
    List (Int × Int × Option Int) :=
  (ymd.filterMap id).filter (fun t => t.1 == y && t.2.1 == m)

/-- `BookStats.month_stats` of `booktracker_typer/main.py`.  The Python
method returns a singleton list `[row]`; we return the row itself and model
the singleton wrapper at the call sites (`flatten` of singleton lists is
concatenation of the rows).  The result is `none` when Python would raise
(`mean` applied to data containing `None`). -/
def month_stats (ymd : List (Option (Int × Int × Option Int))) (y m : Int) :
    Option MonthRow :=
  let books_read := monthBooks ymd y m
  let count := books_read.length
  if count = 0 then
    some { year := y, month := m, count := count, avg_days_to_read := none }
  else
    match allSome (books_read.map (fun t => t.2.2)) with
    | some days =>
        some { year := y, month := m, count := count,
               avg_days_to_read := some (round2c days.sum (count : Int)) }
    | none => none

/-- The filter in `year_stats`:
`[book for book in self.ymd if book and book[0] == year]`. -/
def yearBooks (ymd : List (Option (Int × Int × Option Int))) (y : Int) :
    List (Int × Int × Option Int) :=
  (ymd.filterMap id).filter (fun t => t.1 == y)

/-- The summary branch of `BookStats.year_stats` (`complete=False`):
count and average over the whole year. -/
def year_summary (ymd : List (Option (Int × Int × Option Int))) (y : Int) :
    Option YearRow :=
  let books_read := yearBooks ymd y
  let count := books_read.length
  if count = 0 then
    some { year := y, count := count, avg_days_to_read := none }
  else
    match allSome (books_read.map (fun t => t.2.2)) with
    | some days =>
        some { year := y, count := count,
               avg_days_to_read := some (round2c days.sum (count : Int)) }
    | none => none

/-- The `complete=True` branch of `BookStats.year_stats`: the year count and
average are still computed first (and discarded), then
`self.flatten([self.month_stats(year, month) for month in range(1, 13)])`. -/
def year_stats_complete (ymd : List (Option (Int × Int × Option Int))) (y : Int) :
    Option (List MonthRow) :=
  match year_summary ymd y with
  | none => none
  | some _ =>
      allSome ((List.range' 1 12).map (fun m => month_stats ymd y (Int.ofNat m)))

/-- `years = \x7bbook[0] for book in self.ymd if book\x7d` in `complete_stats`:
the distinct years among the projected triples (iteration order of the
Python set is unspecified; we use the deduplicated projection order). -/
def yearsOf (ymd : List (Option (Int × Int × Option Int))) : List Int :=
  ((ymd.filterMap id).map (fun t => t.1)).dedup

/-- `BookStats.complete_stats` of `booktracker_typer/main.py`: for each
distinct year the 12 month rows, flattened. -/
def complete_stats (ymd : List (Option (Int × Int × Option Int))) :
    Option (List MonthRow) :=
  (allSome ((yearsOf ymd).map (fun y =>
    allSome ((List.range' 1 12).map (fun m => month_stats ymd y (Int.ofNat m)))))).map
    List.flatten

/-! ### Spec-side descriptions of the aggregate rows

These two definitions follow the specification's words (spec sections 3 and
4.2), to be compared with the aggregator translated from the code above. -/

/-- Spec-side: the books of the `(y, m)` group — status `COMPLETED` and a
`date_completed` falling in year `y` and month `m`. -/
def specGroup (books : List Book) (y m : Int) : List Book :=
  books.filter (fun b =>
    b.status == Status.COMPLETED &&
      match b.date_completed with
      | some dc => dc.year == y && dc.month == m
      | none => false)

/-- Spec-side month row: `count` is the cardinality of the group,
`avg_days_to_read` the mean of the group's `days_to_read` rounded to two
decimals (stored as hundredths), absent when the count is zero. -/
def specMonthRow (books : List Book) (y m : Int) : MonthRow :=
  let group := specGroup books y m
  { year := y, month := m, count := group.length,
    avg_days_to_read :=
      if group.length = 0 then none
      else some (round2c (group.filterMap Book.days_to_read).sum (group.length : Int)) }

/-! ### Book construction and the `add` command (typer variant) -/

/-- `Book.validate_date_completed` of `db.py`: when both dates are present,
accept exactly when `date_completed >= date_started`. -/
def validate_date_completed (ds dc : Option Date) : Bool :=
  match ds, dc with
  | some s, some c => s.ord ≤ c.ord
  | _, _ => true

/-- Constructing a `Book` through the pydantic model of `db.py`: the
model validator `validate_date_completed` rejects `date_completed`
earlier than `date_started` and construction fails. -/
def construct (title author : String) (status : Status) (ds dc : Option Date) :
    Except String Book :=
  if validate_date_completed ds dc then
    .ok { title := title, author := author, status := status,
          date_started := ds, date_completed := dc }
  else
    .error "date_completed must be after date_started."

/-- A row of the SQLite `books` table (dates modelled parsed, as in `Book`). -/
structure SRow where
  id : Int
  title : String
  author : String
  status : Status
  date_started : Option Date
  date_completed : Option Date
deriving DecidableEq, Repr

/-- The `add` command of `booktracker_typer/main.py`.  Returns the printed
validation messages and the store after the command.  The `try/except`
around `Book(...)` catches the validation failure and prints it, but the
`INSERT` statement stands outside the `try/except`, so it executes and
commits whether construction succeeded or not.  `nextId` models the id the
database assigns to the inserted row. -/
def add_command (store : List SRow) (nextId : Int) (title author : String)
    (status : Status) (ds dc : Option Date) : List String × List SRow :=
  let msgs :=
    match construct title author status ds dc with
    | .ok _ => []
    | .error e => [e]
  (msgs,
   store ++ [{ id := nextId, title := title, author := author,
               status := status, date_started := ds, date_completed := dc }])

/-! ### The `delete` and `edit` commands (typer variant) -/

/-- The message `f"There is no book with \x7bid=\x7d."` printed by `delete`. -/
def notFoundMsg (id : Int) : String :=
  "There is no book with id=" ++ toString id ++ "."

/-- The message `f"There is no book with \x7bid=\x7d"` printed by `edit`. -/
def notFoundMsgEdit (id : Int) : String :=
  "There is no book with id=" ++ toString id

/-- The `delete` command of `booktracker_typer/main.py`: fetch the row with
the given id; when present, ask for confirmation (`confirm` models the user
answering `y`) and delete; when absent, print the not-found message.  The
command always returns normally. -/
def delete_command (store : List SRow) (id : Int) (confirm : Bool) :
    List SRow × List String :=
  match store.find? (fun r => r.id == id) with
  | some r =>
      if confirm then
        (store.filter (fun r2 => !(r2.id == id)),
         ["Deleting '" ++ r.title ++ "' by " ++ r.author ++ "...",
          "'" ++ r.title ++ "' by " ++ r.author ++ " has been deleted."])
      else (store, [])
  | none => (store, [notFoundMsg id])

/-- The `edit` command of `booktracker_typer/main.py`: fetch the row with
the given id; when present, the interactive field-by-field prompt collects
updates — modelled by their net effect `edits` on the row and the flag
`anyEntered` (Python's `update_values` being nonempty) — and the `UPDATE`
rewrites the rows with that id; when absent, print the not-found message.
The command always returns normally. -/
def edit_command (store : List SRow) (id : Int) (edits : SRow → SRow)
    (anyEntered : Bool) : List SRow × List String :=
  match store.find? (fun r => r.id == id) with
  | some _ =>
      if anyEntered then
        (store.map (fun r => if r.id == id then edits r else r), [])
      else (store, [])
  | none => (store, [notFoundMsgEdit id])

/-! ### `get_books` (typer variant) -/

/-- The searchable columns of the `books` table (the CLI passes a column
name as a string; a run that reaches the query uses one of these). -/
inductive Fld where
  | id
  | title
  | author
  | status
  | date_started
  | date_completed
deriving DecidableEq, Repr

/-- The stored text of a status. -/
def statusStr : Status → String
  | .TBR => "TBR"
  | .IN_PROGRESS => "IN_PROGRESS"
  | .COMPLETED => "COMPLETED"

/-- Zero-padded two-digit rendering used inside ISO dates. -/
def two (n : Int) : String := (if n < 10 then "0" else "") ++ toString n

/-- The stored text of an optional date (ISO string, or the empty string). -/
def isoStr : Option Date → String
  | none => ""
  | some d => toString d.year ++ "-" ++ two d.month ++ "-" ++ two d.day

/-- The stored text of a row's column. -/
def fieldGet (r : SRow) : Fld → String
  | .id => toString r.id
  | .title => r.title
  | .author => r.author
  | .status => statusStr r.status
  | .date_started => isoStr r.date_started
  | .date_completed => isoStr r.date_completed

/-- Does `hay` begin with `needle`? -/
def beginsWith : List Char → List Char → Bool
  | [], _ => true
  | _ :: _, [] => false
  | a :: as, b :: bs => a == b && beginsWith as bs

/-- Does `hay` contain `needle` as a contiguous run? -/
def hasSub : List Char → List Char → Bool
  | needle, [] => beginsWith needle []
  | needle, c :: rest => beginsWith needle (c :: rest) || hasSub needle rest

/-- SQL `LIKE '%v%'`: case-insensitive substring match. -/
def likeMatch (v field : String) : Bool :=
  hasSub (v.data.map Char.toLower) (field.data.map Char.toLower)

/-- The rows selected by the query of `get_books`: with a truthy field and
value, `WHERE id=?` (the string binding compared under SQLite's integer
affinity) or `WHERE field LIKE '%value%'`; otherwise a full scan. -/
def matchRows (store : List SRow) (field : Option Fld) (value : Option String) :
    List SRow :=
  match field, value with
  | some f, some v =>
      if v == "" then store
      else if f = Fld.id then store.filter (fun r => v.toInt? == some r.id)
      else store.filter (fun r => likeMatch v (fieldGet r f))
  | _, _ => store

/-- `get_books` of `booktracker_typer/main.py`: `if books: return [...]` —
the matching rows when there are any, and the implicit Python `None`
(not the empty list) when there are none. -/
def get_books (store : List SRow) (field : Option Fld) (value : Option String) :
    Option (List SRow) :=
  let books := matchRows store field value
  if books.isEmpty then none else some books

/-! ### Id assignment (`booktracker/main.py`, `booktracker_argparse/src/main.py`) -/

/-- `Book.__post_init__` id assignment: `int(books[-1].id) + 1` when the
store is nonempty, else `1`.  `ids` lists the store's ids in file order. -/
def assign_id (ids : List Int) : Int :=
  match ids.getLast? with
  | some lastId => lastId + 1
  | none => 1

/-- Spec-side: the maximum id present in the store (`0` for an empty store,
so that `maxId ids + 1` is the id the spec predicts next). -/
def maxId (ids : List Int) : Int := ids.foldr max 0

/-! ### The argparse-variant aggregator (`booktracker_argparse/src/main.py`) -/

namespace AP

/-- The `Book` dataclass of `booktracker_argparse/src/main.py` (its
`days_to_read` field is computed in `__post_init__`, here derived). -/
structure Book where
  title : String := ""
  author : String := ""
  status : Status := .TBR
  date_started : Option Date := none
  date_completed : Option Date := none
deriving DecidableEq, Repr

/-- `days_to_read` computed in `__post_init__`: `(dc - ds).days + 1` when
both dates are present, else `None`. -/
def days_to_read (b : Book) : Option Int :=
  match b.date_started, b.date_completed with
  | some ds, some dc => some (dc.ord - ds.ord + 1)
  | _, _ => none

/-- `BookStats.get_ymd` of `booktracker_argparse/src/main.py`:
`if book.days_to_read and book.date_completed:` — truthiness of
`days_to_read` (not `None` and nonzero); the status is NOT consulted. -/
def get_ymd (b : Book) : Option (Int × Int × Int) :=
  match days_to_read b, b.date_completed with
  | some d, some dc => if d == 0 then none else some (dc.year, dc.month, d)
  | _, _ => none

/-- `BookStats.month_stats` of `booktracker_argparse/src/main.py` (textually
the same computation as the typer variant; the projected third component is
always an integer here, so `mean` cannot raise and the result is total). -/
def month_stats (ymd : List (Option (Int × Int × Int))) (y m : Int) : MonthRow :=
  let books_read := (ymd.filterMap id).filter (fun t => t.1 == y && t.2.1 == m)
  let count := books_read.length
  if count = 0 then
    { year := y, month := m, count := count, avg_days_to_read := none }
  else
    { year := y, month := m, count := count,
      avg_days_to_read :=
        some (round2c (books_read.map (fun t => t.2.2)).sum (count : Int)) }

end AP

/-! ### The date-format check -/

/-- Consume one character of the class `[0-9]`. -/
def matchDigit : List Char → Option (List Char)
  | [] => none
  | c :: cs => if c.isDigit then some cs else none

/-- Consume one literal character. -/
def matchLit (c : Char) : List Char → Option (List Char)
  | [] => none
  | d :: cs => if d == c then some cs else none

/-- The matcher of the pattern `[0-9]` four times, `-`, `[0-9]` twice, `-`,
`[0-9]` twice, run against the start of the input: each atom of the regex
consumes its character in sequence, and whatever input remains after the
last atom is ignored (`re.match` anchors at the start only). -/
def validateCore (cs : List Char) : Bool :=
  ((((((((((matchDigit cs).bind matchDigit).bind matchDigit).bind
    matchDigit).bind (matchLit '-')).bind matchDigit).bind
    matchDigit).bind (matchLit '-')).bind matchDigit).bind matchDigit).isSome

/-- `re.match` with the pattern above, as in `Book.validate_date` of
`db.py`, `date_callback` of `booktracker_typer/main.py` and
`validate_dates` of `booktracker_click/booktracker.py`. -/
def validate_date (s : String) : Bool :=
  validateCore s.data

/-- The claim-side pattern: the first ten characters of the string are
digit, digit, digit, digit, dash, digit, digit, dash, digit, digit, and
anything at all may follow. -/
def firstTenDatePattern : List Char → Bool
  | c0 :: c1 :: c2 :: c3 :: h1 :: c4 :: c5 :: h2 :: c6 :: c7 :: _ =>
      c0.isDigit && c1.isDigit && c2.isDigit && c3.isDigit && h1 == '-' &&
      c4.isDigit && c5.isDigit && h2 == '-' && c6.isDigit && c7.isDigit
  | _ => false

/-! ### Helper lemmas -/

theorem allSome_eq_some_of_forall_isSome {α : Type} (l : List (Option α))
    (h : ∀ x ∈ l, x.isSome) : allSome l = some (l.filterMap id) := by
  induction l with
  | nil => rfl
  | cons x xs ih =>
      cases x with
      | none => exact absurd (h none (List.mem_cons_self _ _)) (by simp)
      | some a =>
          have := ih (fun x hx => h x (List.mem_cons_of_mem _ hx))
          simp [allSome, this, List.filterMap_cons]

theorem allSome_map_eq_some {α β : Type} (l : List α) (f : α → Option β)
    (g : α → β) (h : ∀ x ∈ l, f x = some (g x)) :
    allSome (l.map f) = some (l.map g) := by
  induction l with
  | nil => rfl
  | cons x xs ih =>
      have hx := h x (List.mem_cons_self _ _)
      have := ih (fun y hy => h y (List.mem_cons_of_mem _ hy))
      simp [allSome, hx, this]

theorem monthBooks_ymdOf (books : List Book) (y m : Int) :
    monthBooks (ymdOf books) y m =
      (specGroup books y m).map (fun b => (y, m, b.days_to_read)) := by
  induction books with
  | nil => rfl
  | cons b bs ih =>
      unfold monthBooks ymdOf specGroup at ih ⊢
      simp only [List.map_cons, List.filterMap_cons]
      rcases hdc : b.date_completed with _ | dc
      · rcases hs : b.status with _ | _ | _ <;>
          simpa [get_ymd, hs, hdc, List.filter_cons, List.filterMap_map] using ih
      · rcases hs : b.status with _ | _ | _
        · simpa [get_ymd, hs, hdc, List.filter_cons, List.filterMap_map] using ih
        · simpa [get_ymd, hs, hdc, List.filter_cons, List.filterMap_map] using ih
        · simp only [get_ymd, hs, hdc]
          by_cases hcond : (dc.year == y && dc.month == m) = true
          · have hy : dc.year = y := by
              simp only [Bool.and_eq_true, beq_iff_eq] at hcond; exact hcond.1
            have hm : dc.month = m := by
              simp only [Bool.and_eq_true, beq_iff_eq] at hcond; exact hcond.2
            simpa [List.filter_cons, get_ymd, hs, hdc, hcond, hy, hm,
              List.filterMap_map] using ih
          · simpa [List.filter_cons, get_ymd, hs, hdc, hcond,
              List.filterMap_map] using ih

theorem month_stats_eq_spec (books : List Book) (y m : Int)
    (h : ∀ b ∈ specGroup books y m, (b.days_to_read).isSome) :
    month_stats (ymdOf books) y m = some (specMonthRow books y m) := by
  unfold month_stats specMonthRow
  rw [monthBooks_ymdOf]
  simp only [List.length_map]
  by_cases hlen : (specGroup books y m).length = 0
  · simp [hlen]
  · have hmap : ((specGroup books y m).map
        (fun b => ((y, m, b.days_to_read) : Int × Int × Option Int))).map
          (fun t => t.2.2)
        = (specGroup books y m).map (fun b => b.days_to_read) := by
      simp [List.map_map, Function.comp]
    have hall : allSome ((specGroup books y m).map (fun b => b.days_to_read))
        = some ((specGroup books y m).filterMap Book.days_to_read) := by
      rw [allSome_eq_some_of_forall_isSome]
      · rw [List.filterMap_map]
        rfl
      · intro x hx
        rcases List.mem_map.mp hx with ⟨b, hb, rfl⟩
        exact h b hb
    simp [hlen, hmap, hall]

theorem proj_days_isSome (books : List Book)
    (h : ∀ b ∈ books, b.status = Status.COMPLETED → b.date_completed ≠ none →
      (b.days_to_read).isSome) :
    ∀ t ∈ (ymdOf books).filterMap id, (t.2.2).isSome := by
  intro t ht
  rcases List.mem_filterMap.mp ht with ⟨o, ho, hoeq⟩
  rcases List.mem_map.mp ho with ⟨b, hb, rfl⟩
  rcases hsb : b.status <;> rcases hdb : b.date_completed with _ | dc <;>
    simp [get_ymd, hsb, hdb] at hoeq
  subst hoeq
  exact h b hb hsb (by simp [hdb])

theorem specGroup_days_isSome (books : List Book) (y m : Int)
    (h : ∀ b ∈ books, b.status = Status.COMPLETED → b.date_completed ≠ none →
      (b.days_to_read).isSome) :
    ∀ b ∈ specGroup books y m, (b.days_to_read).isSome := by
  intro b hb
  rcases List.mem_filter.mp hb with ⟨hmem, hpred⟩
  simp only [Bool.and_eq_true, beq_iff_eq] at hpred
  rcases hdb : b.date_completed with _ | dc
  · rw [hdb] at hpred; simp at hpred
  · exact h b hmem hpred.1 (by simp [hdb])

theorem year_summary_isSome (books : List Book) (y : Int)
    (hProj : ∀ t ∈ (ymdOf books).filterMap id, (t.2.2).isSome) :
    (year_summary (ymdOf books) y).isSome := by
  unfold year_summary
  by_cases hlen : (yearBooks (ymdOf books) y).length = 0
  · simp [hlen]
  · have hall := allSome_eq_some_of_forall_isSome
      ((yearBooks (ymdOf books) y).map (fun t => t.2.2)) ?_
    · simp [hlen, hall]
    · intro x hx
      rcases List.mem_map.mp hx with ⟨t, ht, rfl⟩
      exact hProj t (List.mem_of_mem_filter ht)

/-! ### Concrete inputs used by the claims -/

/-- The two January-2025 books of the spec's example: completed 2025-01-10
with `days_to_read` 5, and completed 2025-01-20 with `days_to_read` 3. -/
def exJanuary : List Book :=
  [{ status := .COMPLETED, date_started := some ⟨2025, 1, 6⟩,
     date_completed := some ⟨2025, 1, 10⟩ },
   { status := .COMPLETED, date_started := some ⟨2025, 1, 18⟩,
     date_completed := some ⟨2025, 1, 20⟩ }]

/-- A single book completed in March 2025. -/
def exMarch : List Book :=
  [{ status := .COMPLETED, date_started := some ⟨2025, 3, 1⟩,
     date_completed := some ⟨2025, 3, 5⟩ }]

/-! ### The claims -/

/-- C1: for every list of books and every year and month, the month-level
aggregate returns the row whose `count` is the number of COMPLETED books
whose `date_completed` falls in that year and month, and whose
`avg_days_to_read` is the mean of those books' `days_to_read` rounded to two
decimals (absent when the count is zero) — provided each counted book
carries a `days_to_read` (Python's `mean` raises on `None` data). -/
theorem month_aggregate_spec (books : List Book) (y m : Int)
    (h : ∀ b ∈ specGroup books y m, (b.days_to_read).isSome) :
    month_stats (ymdOf books) y m = some (specMonthRow books y m) ∧
    (specMonthRow books y m).count = (specGroup books y m).length ∧
    ((specGroup books y m).length = 0 →
      (specMonthRow books y m).avg_days_to_read = none) := by
  refine ⟨month_stats_eq_spec books y m h, rfl, ?_⟩
  intro hlen
  simp [specMonthRow, hlen]

/-- C1 witness: the spec's concrete example — two COMPLETED books completed
in January 2025 with `days_to_read` 5 and 3 give the row
(2025, 1, count 2, average 4.00). -/
theorem month_aggregate_spec_witness :
    month_stats (ymdOf exJanuary) 2025 1
      = some { year := 2025, month := 1, count := 2, avg_days_to_read := some 400 } := by
  have h := (month_aggregate_spec exJanuary 2025 1 (by decide)).1
  rw [h]; decide

/-- C2 counterexample: the claim "the next id is the maximum id present
plus one" fails on the store whose rows carry ids 3 then 1 (reachable,
since editing moves the edited row to the end of the file): the code
assigns `books[-1].id + 1 = 2`, not `max + 1 = 4`. -/
theorem assign_id_not_max_counterexample :
    assign_id [3, 1] = 2 ∧ maxId [3, 1] + 1 = 4 ∧
    assign_id [3, 1] ≠ maxId [3, 1] + 1 := by decide

/-- C2 (amended): a Book constructed without an explicit id gets the id of
the store's last record plus one (1 for an empty store); when the store's
ids are positive and in nondecreasing file order — as in append-only use —
this equals the maximum existing id plus one. -/
theorem assign_id_append_only (ids : List Int) (hpos : ∀ i ∈ ids, 1 ≤ i)
    (hsorted : List.Sorted (· ≤ ·) ids) :
    assign_id ids = maxId ids + 1 := by
  induction ids with
  | nil => rfl
  | cons a l ih =>
      cases l with
      | nil =>
          have ha : 1 ≤ a := hpos a (List.mem_cons_self _ _)
          unfold assign_id maxId
          simp only [List.getLast?_singleton, List.foldr_cons, List.foldr_nil]
          rw [max_eq_left (by omega)]
      | cons b l' =>
          have hab : a ≤ b := by
            rcases List.sorted_cons.mp hsorted with ⟨h1, _⟩
            exact h1 b (List.mem_cons_self _ _)
          have hrec := ih (fun i hi => hpos i (List.mem_cons_of_mem _ hi))
            (List.sorted_cons.mp hsorted).2
          have h1 : assign_id (a :: b :: l') = assign_id (b :: l') := by
            unfold assign_id
            rw [List.getLast?_cons_cons]
          have h2 : maxId (a :: b :: l') = maxId (b :: l') := by
            unfold maxId
            simp only [List.foldr_cons]
            have hble : b ≤ max b (List.foldr max 0 l') := le_max_left _ _
            exact max_eq_right (le_trans hab hble)
          rw [h1, h2, hrec]

/-- C2 (amended) witness: the spec's concrete store with ids 1, 2, 3 in
order assigns id 4 = max + 1 to the next book. -/
theorem assign_id_append_only_witness :
    assign_id [1, 2, 3] = maxId [1, 2, 3] + 1 ∧ assign_id [1, 2, 3] = 4 :=
  ⟨assign_id_append_only [1, 2, 3] (by decide) (by decide), by decide⟩

/-- C3: constructing a Book with `date_completed` (2025-01-05) strictly
before `date_started` (2025-01-10) fails validation — but the `add` command
of `booktracker_typer/main.py` catches the error, prints it, and still runs
the INSERT outside the `try/except`, so the invalid record IS persisted,
contradicting the claim's "never persisted". -/
theorem add_persists_invalid_record :
    construct "T" "A" .COMPLETED (some ⟨2025, 1, 10⟩) (some ⟨2025, 1, 5⟩)
      = .error "date_completed must be after date_started." ∧
    (add_command [] 1 "T" "A" .COMPLETED (some ⟨2025, 1, 10⟩) (some ⟨2025, 1, 5⟩)).1
      = ["date_completed must be after date_started."] ∧
    (add_command [] 1 "T" "A" .COMPLETED (some ⟨2025, 1, 10⟩) (some ⟨2025, 1, 5⟩)).2
      = [{ id := 1, title := "T", author := "A", status := .COMPLETED,
           date_started := some ⟨2025, 1, 10⟩,
           date_completed := some ⟨2025, 1, 5⟩ }] := by
  refine ⟨rfl, rfl, rfl⟩

/-- C4: a TBR book with both dates populated (2025-01-01 to 2025-01-10,
`days_to_read` 10) is COUNTED by the aggregator of
`booktracker_argparse/src/main.py`, whose `get_ymd` keys on the truthiness
of `days_to_read` and never consults the status — while the typer variant
(status check present) excludes the same book, as the claim demands. -/
theorem tbr_book_counted_by_argparse_aggregator :
    AP.month_stats
        [AP.get_ymd { status := .TBR, date_started := some ⟨2025, 1, 1⟩,
                      date_completed := some ⟨2025, 1, 10⟩ }] 2025 1
      = { year := 2025, month := 1, count := 1, avg_days_to_read := some 1000 } ∧
    month_stats
        (ymdOf [{ status := .TBR, date_started := some ⟨2025, 1, 1⟩,
                  date_completed := some ⟨2025, 1, 10⟩ }]) 2025 1
      = some { year := 2025, month := 1, count := 0, avg_days_to_read := none } := by
  refine ⟨by decide, by decide⟩

/-- C5: for every Book with both dates present and
`date_completed >= date_started`, `days_to_read` equals
`(date_completed - date_started).days + 1` and is at least 1; with either
date absent, `days_to_read` is absent. -/
theorem days_to_read_spec (b : Book) :
    (∀ ds dc, b.date_started = some ds → b.date_completed = some dc →
      ds.ord ≤ dc.ord →
      b.days_to_read = some (dc.ord - ds.ord + 1) ∧ 1 ≤ dc.ord - ds.ord + 1) ∧
    (b.date_started = none ∨ b.date_completed = none → b.days_to_read = none) := by
  constructor
  · intro ds dc h1 h2 hle
    refine ⟨?_, by omega⟩
    unfold Book.days_to_read
    rw [h1, h2]
  · rintro (h | h) <;> unfold Book.days_to_read
    · rw [h]
    · rw [h]
      cases b.date_started <;> rfl

/-- C5 witness: a book read from 2025-01-01 to 2025-01-02 has
`days_to_read = 2` (both endpoints inclusive), which is at least 1. -/
theorem days_to_read_spec_witness :
    ({ status := .COMPLETED, date_started := some ⟨2025, 1, 1⟩,
       date_completed := some ⟨2025, 1, 2⟩ : Book }).days_to_read = some 2 := by
  have h := (days_to_read_spec
    { status := .COMPLETED, date_started := some ⟨2025, 1, 1⟩,
      date_completed := some ⟨2025, 1, 2⟩ }).1
    ⟨2025, 1, 1⟩ ⟨2025, 1, 2⟩ rfl rfl (by decide)
  exact h.1.trans (by decide)

/-- C6: with every projected book carrying a `days_to_read`, the detailed
year breakdown is exactly the 12 spec-side month rows for months 1..12 —
zero-count months included, never skipped — and the all-years aggregate is,
for every distinct year among completed books, those 12 month rows,
flattened; a month with no qualifying books gets count 0 and absent
average. -/
theorem year_detailed_stats_spec (books : List Book) (y : Int)
    (h : ∀ b ∈ books, b.status = Status.COMPLETED → b.date_completed ≠ none →
      (b.days_to_read).isSome) :
    year_stats_complete (ymdOf books) y =
      some ((List.range' 1 12).map (fun m => specMonthRow books y (Int.ofNat m))) ∧
    ((List.range' 1 12).map (fun m => specMonthRow books y (Int.ofNat m))).length = 12 ∧
    complete_stats (ymdOf books) =
      some (((yearsOf (ymdOf books)).map (fun yr =>
        (List.range' 1 12).map (fun m => specMonthRow books yr (Int.ofNat m)))).flatten) ∧
    (∀ y' m : Int, specGroup books y' m = [] →
      specMonthRow books y' m =
        { year := y', month := m, count := 0, avg_days_to_read := none }) := by
  have hMonth : ∀ (y' : Int) (m : Nat), month_stats (ymdOf books) y' (Int.ofNat m)
      = some (specMonthRow books y' (Int.ofNat m)) := fun y' m =>
    month_stats_eq_spec books y' (Int.ofNat m)
      (specGroup_days_isSome books y' (Int.ofNat m) h)
  have hProj := proj_days_isSome books h
  refine ⟨?_, by simp, ?_, ?_⟩
  · unfold year_stats_complete
    have hys := year_summary_isSome books y hProj
    cases hw : year_summary (ymdOf books) y with
    | none => rw [hw] at hys; simp at hys
    | some w => exact allSome_map_eq_some _ _ _ (fun m _ => hMonth y m)
  · unfold complete_stats
    rw [allSome_map_eq_some (yearsOf (ymdOf books)) _
      (fun yr => (List.range' 1 12).map (fun m => specMonthRow books yr (Int.ofNat m)))
      (fun yr _ => allSome_map_eq_some _ _ _ (fun m _ => hMonth yr m))]
    rfl
  · intro y' m hempty
    simp [specMonthRow, hempty]

/-- C6 witness: one book completed in March 2025 gives 12 month rows, 11 of
which have count 0. -/
theorem year_detailed_stats_spec_witness :
    year_stats_complete (ymdOf exMarch) 2025 =
      some ((List.range' 1 12).map (fun m => specMonthRow exMarch 2025 (Int.ofNat m))) ∧
    ((List.range' 1 12).map (fun m => specMonthRow exMarch 2025 (Int.ofNat m))).length
      = 12 ∧
    (((List.range' 1 12).map (fun m => specMonthRow exMarch 2025 (Int.ofNat m))).filter
      (fun r => r.count == 0)).length = 11 := by
  refine ⟨(year_detailed_stats_spec exMarch 2025 (by decide)).1, by decide, by decide⟩

/-- C7: on an empty list of books the aggregator raises nothing: the
month-level and year-level aggregates return a row with count 0 and absent
average, and the all-years aggregate returns the empty sequence. -/
theorem stats_empty_input (y m : Int) :
    month_stats (ymdOf []) y m
      = some { year := y, month := m, count := 0, avg_days_to_read := none } ∧
    year_summary (ymdOf []) y
      = some { year := y, count := 0, avg_days_to_read := none } ∧
    complete_stats (ymdOf []) = some [] :=
  ⟨rfl, rfl, rfl⟩

/-- The selection of `matchRows` on an empty store is empty in every branch. -/
theorem matchRows_nil (field : Option Fld) (value : Option String) :
    matchRows [] field value = [] := by
  unfold matchRows
  rcases field with _ | f <;> rcases value with _ | v <;> simp

/-- C8: the `edit` and `delete` commands against an id absent from the
store print the not-found message, leave the store completely unchanged,
and return normally (no exception path exists in either branch). -/
theorem notfound_edit_delete_unchanged (store : List SRow) (id : Int)
    (confirm : Bool) (edits : SRow → SRow) (anyEntered : Bool)
    (h : ∀ r ∈ store, r.id ≠ id) :
    delete_command store id confirm = (store, [notFoundMsg id]) ∧
    edit_command store id edits anyEntered = (store, [notFoundMsgEdit id]) := by
  have hfind : store.find? (fun r => r.id == id) = none := by
    rw [List.find?_eq_none]
    intro r hr
    simp [h r hr]
  unfold delete_command edit_command
  rw [hfind]
  exact ⟨rfl, rfl⟩

/-- A one-row store: the single book with id 1. -/
def exRow : SRow :=
  { id := 1, title := "T", author := "A", status := .TBR,
    date_started := none, date_completed := none }

/-- C8 witness: deleting or editing id 2 in a store holding only id 1. -/
theorem notfound_edit_delete_unchanged_witness :
    delete_command [exRow] 2 true = ([exRow], [notFoundMsg 2]) ∧
    edit_command [exRow] 2 (fun r => r) false = ([exRow], [notFoundMsgEdit 2]) :=
  notfound_edit_delete_unchanged [exRow] 2 true (fun r => r) false (by decide)

/-- C9: `get_books` yields Python `None` — never the empty list — when no
rows match: the result is `none` exactly when the selection is empty (so in
particular on an empty store), and every returned list is nonempty, so a
caller that iterates or aggregates without first testing the result
operates on a non-list value. -/
theorem get_books_none_on_no_match (store : List SRow) (field : Option Fld)
    (value : Option String) :
    (get_books store field value = none ↔ matchRows store field value = []) ∧
    (store = [] → get_books store field value = none) ∧
    (∀ bs, get_books store field value = some bs → bs ≠ []) := by
  by_cases he : (matchRows store field value).isEmpty
  · have hnil : matchRows store field value = [] := by simpa using he
    refine ⟨by simp [get_books, he, hnil], fun _ => by simp [get_books, he], ?_⟩
    intro bs hbs
    simp [get_books, he] at hbs
  · have hne : matchRows store field value ≠ [] := by simpa using he
    refine ⟨by simp [get_books, he, hne], ?_, ?_⟩
    · intro hs
      subst hs
      exact absurd (matchRows_nil field value) hne
    · intro bs hbs
      simp only [get_books, if_neg he, Option.some.injEq] at hbs
      exact hbs ▸ hne


/-- C9 witness: a query with zero matches — here on the empty store —
returns `none`. -/
theorem get_books_none_on_no_match_witness :
    get_books [] (some Fld.title) (some "x") = none :=
  (get_books_none_on_no_match [] (some Fld.title) (some "x")).2.1 rfl

theorem bind_ite {α β : Type} (p : Prop) [Decidable p] (x y : Option α)
    (f : α → Option β) :
    (if p then x else y).bind f = if p then x.bind f else y.bind f := by
  split <;> rfl

/-- The sequential matcher accepts exactly the strings whose first ten
characters follow the digit-dash pattern, whatever comes after. -/
theorem validateCore_eq_firstTen (cs : List Char) :
    validateCore cs = firstTenDatePattern cs := by
  unfold validateCore firstTenDatePattern
  rcases cs with _ | ⟨c0, cs⟩
  · rfl
  rcases cs with _ | ⟨c1, cs⟩
  · simp [matchDigit, matchLit, bind_ite]
  rcases cs with _ | ⟨c2, cs⟩
  · simp [matchDigit, matchLit, bind_ite]
  rcases cs with _ | ⟨c3, cs⟩
  · simp [matchDigit, matchLit, bind_ite]
  rcases cs with _ | ⟨h1, cs⟩
  · simp [matchDigit, matchLit, bind_ite]
  rcases cs with _ | ⟨c4, cs⟩
  · simp [matchDigit, matchLit, bind_ite]
  rcases cs with _ | ⟨c5, cs⟩
  · simp [matchDigit, matchLit, bind_ite]
  rcases cs with _ | ⟨h2, cs⟩
  · simp [matchDigit, matchLit, bind_ite]
  rcases cs with _ | ⟨c6, cs⟩
  · simp [matchDigit, matchLit, bind_ite]
  rcases cs with _ | ⟨c7, rest⟩
  · simp [matchDigit, matchLit, bind_ite]
  cases hc0 : c0.isDigit
  · simp [matchDigit, matchLit, hc0]
  cases hc1 : c1.isDigit
  · simp [matchDigit, matchLit, hc0, hc1]
  cases hc2 : c2.isDigit
  · simp [matchDigit, matchLit, hc0, hc1, hc2]
  cases hc3 : c3.isDigit
  · simp [matchDigit, matchLit, hc0, hc1, hc2, hc3]
  by_cases hd1 : h1 = '-'
  swap
  · simp [matchDigit, matchLit, hc0, hc1, hc2, hc3, hd1]
  cases hc4 : c4.isDigit
  · simp [matchDigit, matchLit, hc0, hc1, hc2, hc3, hd1, hc4]
  cases hc5 : c5.isDigit
  · simp [matchDigit, matchLit, hc0, hc1, hc2, hc3, hd1, hc4, hc5]
  by_cases hd2 : h2 = '-'
  swap
  · simp [matchDigit, matchLit, hc0, hc1, hc2, hc3, hd1, hc4, hc5, hd2]
  cases hc6 : c6.isDigit
  · simp [matchDigit, matchLit, hc0, hc1, hc2, hc3, hd1, hc4, hc5, hd2, hc6]
  cases hc7 : c7.isDigit <;>
    simp [matchDigit, matchLit, hc0, hc1, hc2, hc3, hd1, hc4, hc5, hd2, hc6, hc7]

/-- C10: the date-format check used at Book construction and at the CLI
boundary accepts exactly the strings whose first ten characters match the
digit pattern NNNN-NN-NN, regardless of trailing characters and of calendar
validity — the regular expression is anchored at the start only; in
particular "2025-13-99" and "2025-01-01extra" both pass. -/
theorem date_format_check_unanchored :
    (∀ s : String, validate_date s = true ↔ firstTenDatePattern s.data = true) ∧
    validate_date "2025-13-99" = true ∧
    validate_date "2025-01-01extra" = true := by
  refine ⟨fun s => ?_, by decide, by decide⟩
  rw [validate_date, validateCore_eq_firstTen]

end BookTrack
